import Mathlib

/-!
Verification development for the AppScale AppManager service
(AppManager/app_manager_server.py).

Python strings are embedded as lists of characters (`Str`), Python ints as
`Int` (ports and memory sizes), and the side effects performed by the
service (supervisor calls, registry calls, source fetches, log rotation)
as an explicit trace of events.  External collaborators (the Monit
supervisor HTTP endpoint, the projects model, deployment configuration)
are oracles packaged in an `Env` record, so every function of the source
becomes a pure function of its inputs and that environment.
-/

/-- Python strings are modelled as lists of characters. -/
abbrev Str := List Char

/-- Model of Python `s.split(sep)` for a one-character separator:
`splitSep '_' "a_b"` is `["a", "b"]` and `splitSep '_' ""` is `[""]`. -/
def splitSep (sep : Char) : Str → List Str
  | [] => [[]]
  | c :: rest =>
    match splitSep sep rest with
    | [] => [[c]]
    | h :: t => if c = sep then [] :: h :: t else (c :: h) :: t

/-- Model of Python `s.rsplit(sep, 1)` when the separator occurs: splits at
the last occurrence of `sep`.  When `sep` does not occur the first
component is empty (the callers in the source only apply it to strings
that contain the separator). -/
def splitLast (sep : Char) (s : Str) : Str × Str :=
  let r := s.reverse
  (((r.dropWhile (fun c => ¬ c = sep)).drop 1).reverse,
   (r.takeWhile (fun c => ¬ c = sep)).reverse)

/-- Boolean prefix test on character lists (Python `s.startswith(p)`). -/
def isPre : Str → Str → Bool
  | [], _ => true
  | _ :: _, [] => false
  | a :: as, b :: bs => if a = b then isPre as bs else false

/-- Boolean contiguous-substring test on character lists
(`p` occurs somewhere inside `s`). -/
def isSub (p : Str) : Str → Bool
  | [] => isPre p []
  | c :: rest => isPre p (c :: rest) || isSub p rest

/-- The decimal digit character for a digit value below ten. -/
def digitChar (d : Nat) : Char := Char.ofNat (48 + d)

/-- Decimal digits of a number, least significant first, with explicit
fuel so that the recursion is structural. -/
def digitsAux : Nat → Nat → List Nat
  | 0, _ => []
  | _ + 1, 0 => []
  | fuel + 1, n + 1 => ((n + 1) % 10) :: digitsAux fuel ((n + 1) / 10)

/-- Model of Python `str(n)` for a non-negative integer: the decimal
representation, most significant digit first. -/
def natRepr (n : Nat) : Str :=
  if n = 0 then ['0'] else ((digitsAux n n).map digitChar).reverse

/-- Model of Python `str(i)` for an integer. -/
def intRepr (i : Int) : Str :=
  if i < 0 then '-' :: natRepr (-i).toNat else natRepr i.toNat

/-- Model of Python `int(s)` on a string of decimal digits. -/
def parseNat (s : Str) : Nat :=
  s.foldl (fun a c => a * 10 + (c.toNat - 48)) 0

/-- The separator of version key components (`VERSION_PATH_SEPARATOR`).
The constant is imported from `appscale.common.constants`; `recover_state`
in the source uses the literal underscore interchangeably with it
(line 968 of app_manager_server.py). -/
def VERSION_PATH_SEP : Char := '_'

/-- The Monit watch name prefix for API servers (`API_SERVER_PREFIX`,
line 69 of the source). -/
def apiServerWatchPre : Str := "api-server_".toList

/-- Modelled from the spec: `MONIT_INSTANCE_PREFIX` is imported from
`appscale.admin.instance_manager.constants`, which is not part of this
repository snapshot; the spec names instance watches
`instance_<revisionKey>-<port>`, so the value is taken to be
`"instance_"`. -/
def instanceWatchPre : Str := "instance_".toList

/-- The highest available port to assign to an API server
(`MAX_API_SERVER_PORT`, line 108). -/
def MAX_API_SERVER_PORT : Int := 19999

/-- Seconds to wait for an application to start (`START_APP_TIMEOUT`). -/
def START_APP_TIMEOUT : Nat := 180

/-- Seconds between health-check attempts (`BACKOFF_TIME`). -/
def BACKOFF_TIME : Nat := 1

/-- The path polled by the health probe (`FETCH_PATH`). -/
def FETCH_PATH : Str := "/_ah/health_check".toList

/-- The success status code compared against by `wait_on_app`. -/
def HTTP_OK : Nat := 200

/-- Modelled from the spec: `misc.is_app_name_valid` lives in
`appscale.common.misc`, outside this repository snapshot.  The spec says
a project id must be a valid identifier (character-class constrained);
the HTTP routes in the source restrict version keys to `[a-z0-9-_]`, so
a project id is taken to be valid when it is nonempty and drawn from that
character class. -/
def is_app_name_valid (s : Str) : Bool :=
  ¬ s = [] && s.all (fun c =>
    ('a' ≤ c && c ≤ 'z') || ('0' ≤ c && c ≤ '9') || c = '-' || c = '_')

/-- An AppServer instance, as in class `Instance` of the source:
equality is by revision key and port. -/
structure Instance where
  revision_key : Str
  port : Int
deriving DecidableEq

/-- Model of Python `sep.join(parts)` for a one-character separator. -/
def joinSep (sep : Char) : List Str → Str
  | [] => []
  | [x] => x
  | x :: y :: t => x ++ sep :: joinSep sep (y :: t)

/-- The `version_key` property of `Instance`: the first three
`VERSION_PATH_SEPARATOR`-separated components of the revision key,
joined back with the separator. -/
def Instance.version_key (i : Instance) : Str :=
  joinSep VERSION_PATH_SEP ((splitSep VERSION_PATH_SEP i.revision_key).take 3)

/-- Observable side effects of the service, recorded as a trace.  Events
name the watch / key / port they act on; the contents of supervisor
configuration files and command lines are outside the scope of the
claims. -/
inductive Ev where
  /-- A call of `ensure_api_server` for a project. -/
  | ensureApiCall (projectId : Str)
  /-- `monit_app_configuration.create_config_file` for an API-server watch. -/
  | apiCreateConfig (watch : Str)
  /-- `monit_interface.start` for an API-server watch. -/
  | apiMonitStart (fullWatch : Str)
  /-- Completion of `source_manager.ensure_source` for a revision key. -/
  | sourceEnsure (revisionKey : Str)
  /-- `monit_app_configuration.create_config_file` for an instance watch. -/
  | createConfig (watch : Str)
  /-- `monit_interface.start` for an instance watch. -/
  | monitStart (fullWatch : Str)
  /-- `zk_client.ensure_path` under the version registration node. -/
  | zkEnsureVersion (versionKey : Str)
  /-- The health probe (`wait_on_app`) polling a port. -/
  | probe (port : Int)
  /-- `register_instance`: create-or-set of the registry node plus adding
  the instance to `running_instances`. -/
  | declare (revisionKey : Str) (port : Int)
  /-- `unregister_instance`: registry delete plus removal from
  `running_instances`. -/
  | retract (revisionKey : Str) (port : Int)
  /-- The unmonitor HTTP request issued for a watch. -/
  | unmonitorCall (watch : Str)
  /-- `monit_operator.remove_configuration` for a watch. -/
  | removeConfig (watch : Str)
  /-- The spawned `stop_instance` termination of a watch. -/
  | terminate (watch : Str)
  /-- `monit_operator.reload`. -/
  | monitReload
  /-- `clean_old_sources`. -/
  | cleanSources
  /-- `setup_logrotate` for a project. -/
  | logrotate (projectId : Str)
deriving DecidableEq

/-- Errors raised by the modelled operations. -/
inductive Err where
  /-- `BadConfigurationException` with its message. -/
  | badConfig (msg : Str)
  /-- The `ValueError` from unpacking a version key that does not have
  exactly three components. -/
  | unpack
  /-- The `AssertionError` when `monit_interface.start` returns false. -/
  | assertFailed (fullWatch : Str)
  /-- The `HTTPError(HTTPCodes.INTERNAL_ERROR)` of `stop_app_instance`
  when no Monit entry matches a version and port. -/
  | noEntries (versionKey : Str) (port : Int)
  /-- An `HTTPError` propagated out of `unmonitor`. -/
  | unmonitorHttp (code : Nat)
deriving DecidableEq

/-- The JSON body of a start request: `app_port` and `login_server` may be
absent; a present but empty `login_server` is falsy in the source's check. -/
structure Config where
  app_port : Option Int
  login_server : Option Str
deriving DecidableEq

/-- A version record of the scheduler's projects model
(`version_details` in the source). -/
structure VersionDetails where
  runtime : Str
  instanceClass : Option Str
  revision : Nat
  sourceUrl : Str
deriving DecidableEq

/-- Oracles for the external collaborators: the Monit supervisor, the
projects model, and deployment configuration. -/
structure Env where
  /-- Whether `monit_interface.start` succeeds for a given full watch name. -/
  monitStartOk : Str → Bool
  /-- Outcome of the `n`-th unmonitor POST for a watch: `none` for a
  successful fetch, `some code` for an `HTTPError` with that code. -/
  unmonitorFetch : Str → Nat → Option Nat
  /-- The projects model: project id, service id, version id to version
  record. -/
  projects : Str → Str → Str → Option VersionDetails
  /-- `runtime_params.get` for `default_max_appserver_memory`. -/
  runtimeParamsMaxMemory : Option Int
  /-- The `DEFAULT_MAX_APPSERVER_MEMORY` constant (imported from outside
  this repository snapshot, so left as an environment parameter). -/
  defaultMaxMemory : Int
  /-- `INSTANCE_CLASSES.get`. -/
  instanceClasses : Str → Option Int
  /-- This node's private IP (`options.private_ip`). -/
  private_ip : Str

/-- The runtime tags of `appscale.common.constants` used by `start_app`
(`PYTHON27`, `GO`, `PHP`, `JAVA`); the spec names them literally. -/
def RT_PYTHON27 : Str := "python27".toList

/-- The Go runtime tag. -/
def RT_GO : Str := "go".toList

/-- The PHP runtime tag. -/
def RT_PHP : Str := "php".toList

/-- The Java runtime tag. -/
def RT_JAVA : Str := "java".toList

/-- The runtimes served by the Python dev-appserver branch of `start_app`
(line 342 of the source). -/
def knownPython (r : Str) : Bool :=
  r = RT_PYTHON27 || r = RT_GO || r = RT_PHP

/-- Lookup in an association list modelling a Python dict
(`api_servers` maps project ids to ports). -/
def alistLookup (st : List (Str × Int)) (k : Str) : Option Int :=
  match st with
  | [] => none
  | (k', v) :: rest => if k' = k then some v else alistLookup rest k

/-- Deletion of a key from the association list (`del api_servers[k]`). -/
def alistErase (st : List (Str × Int)) (k : Str) : List (Str × Int) :=
  match st with
  | [] => []
  | (k', v) :: rest =>
    if k' = k then alistErase rest k else (k', v) :: alistErase rest k

/-- The port-assignment loop of `ensure_api_server` (lines 222 to 225):
starting from `MAX_API_SERVER_PORT`, each assigned port at or below the
candidate lowers the candidate to one less than that port. -/
def pickPort (ports : List Int) : Int :=
  ports.foldl (fun s p => if p ≤ s then p - 1 else s) MAX_API_SERVER_PORT

/-- The API-server watch name `watch` of `ensure_api_server` (line 233). -/
def apiServerWatch (projectId : Str) : Str :=
  apiServerWatchPre ++ projectId

/-- The API-server full watch name `full_watch` (line 234); also the name
rebuilt by `stop_api_server` (line 263). -/
def apiServerFullWatch (projectId : Str) (port : Int) : Str :=
  apiServerWatch projectId ++ '-' :: intRepr port

/-- Model of `ensure_api_server` (lines 210 to 248): returns the cached
port for a known project, otherwise picks a port, writes a Monit config,
starts the watch (the `assert` on the start result), caches and returns
the port. -/
def ensure_api_server (env : Env) (projectId : Str)
    (api_servers : List (Str × Int)) :
    List Ev × Except Err (Int × List (Str × Int)) :=
  match alistLookup api_servers projectId with
  | some port => ([], .ok (port, api_servers))
  | none =>
    let server_port := pickPort (api_servers.map Prod.snd)
    let watch := apiServerWatch projectId
    let full_watch := apiServerFullWatch projectId server_port
    let evs := [Ev.apiCreateConfig watch, Ev.apiMonitStart full_watch]
    if env.monitStartOk full_watch then
      (evs, .ok (server_port, api_servers ++ [(projectId, server_port)]))
    else
      (evs, .error (.assertFailed full_watch))

/-- The `api_server_info` parser inside `populate_api_servers`
(lines 271 to 274): split at the last dash, drop the API-server watch
name prefix, read the port. -/
def api_server_info (entry : Str) : Str × Int :=
  let p := splitLast '-' entry
  (p.1.drop apiServerWatchPre.length, (parseNat p.2 : Int))

/-- Outcome of the modelled `unmonitor`. -/
inductive UnmonRes where
  | ok
  | notFound
  | raised (code : Nat)
deriving DecidableEq

/-- Model of `unmonitor` (lines 452 to 475): POST the unmonitor action;
404 raises `ProcessNotFound`, 503 retries up to the retry budget, any
other error propagates.  The first argument of the loop is the remaining
retry budget, the second counts attempts for the fetch oracle. -/
def unmonitorLoop (env : Env) (name : Str) : Nat → Nat → UnmonRes
  | retries, att =>
    match env.unmonitorFetch name att with
    | none => .ok
    | some 404 => .notFound
    | some 503 =>
      match retries with
      | 0 => .raised 503
      | r + 1 => unmonitorLoop env name r (att + 1)
    | some c => .raised c

/-- `unmonitor` with its default retry budget of five. -/
def unmonitor (env : Env) (name : Str) : UnmonRes :=
  unmonitorLoop env name 5 0

/-- Model of `unmonitor_and_terminate` (lines 498 to 516): a
`ProcessNotFound` from `unmonitor` returns immediately; otherwise the
Monit configuration is removed and termination of the process is
spawned. -/
def unmonitor_and_terminate (env : Env) (watch : Str) :
    List Ev × Except Err Unit :=
  match unmonitor env watch with
  | .notFound => ([Ev.unmonitorCall watch], .ok ())
  | .ok => ([Ev.unmonitorCall watch, Ev.removeConfig watch,
             Ev.terminate watch], .ok ())
  | .raised c => ([Ev.unmonitorCall watch], .error (.unmonitorHttp c))

/-- Model of `stop_api_server` (lines 251 to 265): nothing to do for an
unknown project; otherwise tear down the watch and forget the mapping. -/
def stop_api_server (env : Env) (projectId : Str)
    (api_servers : List (Str × Int)) :
    List Ev × Except Err (List (Str × Int)) :=
  match alistLookup api_servers projectId with
  | none => ([], .ok api_servers)
  | some port =>
    let watch := apiServerFullWatch projectId port
    let r := unmonitor_and_terminate env watch
    match r.2 with
    | .ok _ => (r.1, .ok (alistErase api_servers projectId))
    | .error e => (r.1, .error e)

/-- The instance watch name `watch` of `start_app` (line 341). -/
def instanceWatch (revisionKey : Str) : Str :=
  instanceWatchPre ++ revisionKey

/-- The instance full watch name `full_watch` of `start_app` (line 393). -/
def instanceFullWatch (revisionKey : Str) (port : Int) : Str :=
  instanceWatch revisionKey ++ '-' :: intRepr port

/-- The parse of an instance watch name used by `recover_state`
(line 961) and the stop paths (lines 549 and 587): drop the instance
prefix, split at the last dash, read the port. -/
def parseInstanceEntry (entry : Str) : Str × Int :=
  let p := splitLast '-' (entry.drop instanceWatchPre.length)
  (p.1, (parseNat p.2 : Int))

/-- The regular expression test of `stop_app_instance` (lines 539 to
544): `re.match` of pattern `instance_<versionKey>.*-<port>` succeeds on
an entry exactly when the entry starts with the prefix and version key
and the rest contains a dash followed by the decimal port somewhere (the
pattern is unanchored at the end). -/
def instanceKeyMatch (versionKey : Str) (port : Int) (entry : Str) : Bool :=
  let pre := instanceWatchPre ++ versionKey
  isPre pre entry && isSub ('-' :: intRepr port) (entry.drop pre.length)

/-- The URL polled by `wait_on_app` (line 643). -/
def healthUrl (ip : Str) (port : Int) : Str :=
  "http://".toList ++ ip ++ ':' :: intRepr port ++ FETCH_PATH

/-- The number of poll attempts of `wait_on_app` (line 641):
`math.ceil(START_APP_TIMEOUT / BACKOFF_TIME)` with Python 2 integer
division. -/
def waitRetries : Nat := START_APP_TIMEOUT / BACKOFF_TIME

/-- The `http_response` processor of class `NoRedirection` (lines 177 to
189): every response, redirects included, is passed through unchanged. -/
def noRedirectionResponse (code : Nat) : Nat := code

/-- The polling loop of `wait_on_app` (lines 644 to 655).  The oracle
gives the outcome of the attempt at each tick: `some code` is a received
HTTP response with that status, `none` is an `IOError`.  Any received
response returns ready; an `IOError` consumes one retry. -/
def waitLoop (attempt : Nat → Option Nat) : Nat → Nat → Bool
  | 0, _ => false
  | r + 1, t =>
    match attempt t with
    | some _ => true
    | none => waitLoop attempt r (t + 1)

/-- Model of `wait_on_app` (lines 631 to 659). -/
def wait_on_app (attempt : Nat → Option Nat) : Bool :=
  waitLoop attempt waitRetries 0

/-- Model of `add_routing` (lines 192 to 207): wait on the health probe;
if the instance did not come up in time only log and return, otherwise
`register_instance` it. -/
def add_routing (inst : Instance) (probeReady : Bool) : List Ev :=
  Ev.probe inst.port ::
    (if probeReady then [Ev.declare inst.revision_key inst.port] else [])

/-- The `max_memory` computation of `start_app` (lines 318 to 323):
the runtime-parameters default if configured, overridden by the instance
class when the version names one that `INSTANCE_CLASSES` knows. -/
def maxMemoryOf (env : Env) (vd : VersionDetails) : Int :=
  let m := env.runtimeParamsMaxMemory.getD env.defaultMaxMemory
  match vd.instanceClass with
  | some ic => (env.instanceClasses ic).getD m
  | none => m

/-- The revision key built by `start_app` (lines 325 to 326). -/
def mkRevisionKey (projectId serviceId versionId : Str) (rev : Nat) : Str :=
  projectId ++ VERSION_PATH_SEP ::
    (serviceId ++ VERSION_PATH_SEP :: (versionId ++ VERSION_PATH_SEP :: natRepr rev))

/-- The tail of `start_app` common to all runtimes (lines 379 to 412):
write the Monit config, start the watch (asserting success), ensure the
version registration node, spawn `add_routing` (which runs after the
request finishes), and set up log rotation. -/
def startTail (env : Env) (projectId versionKey revisionKey : Str)
    (app_port : Int) (probeReady : Bool) (evs0 : List Ev)
    (api : List (Str × Int)) : List Ev × Except Err (List (Str × Int)) :=
  let watch := instanceWatch revisionKey
  let full_watch := instanceFullWatch revisionKey app_port
  if env.monitStartOk full_watch then
    (evs0 ++ [Ev.createConfig watch, Ev.monitStart full_watch,
              Ev.zkEnsureVersion versionKey, Ev.logrotate projectId] ++
       add_routing ⟨revisionKey, app_port⟩ probeReady,
     .ok api)
  else
    (evs0 ++ [Ev.createConfig watch, Ev.monitStart full_watch],
     .error (.assertFailed full_watch))

/-- Model of `start_app` (lines 286 to 412).  Checks `app_port` and
`login_server`, splits the version key, validates the project id, looks
up the version record, ensures the API server, ensures the source
archive, dispatches on the runtime (Java with too little memory and
unknown runtimes are configuration errors), then runs the common tail.
The trace lists the side effects performed before returning or before
the raised error. -/
def start_app (env : Env) (version_key : Str) (cfg : Config)
    (probeReady : Bool) (api : List (Str × Int)) :
    List Ev × Except Err (List (Str × Int)) :=
  match cfg.app_port with
  | none => ([], .error (.badConfig "app_port is required".toList))
  | some app_port =>
  match cfg.login_server with
  | none => ([], .error (.badConfig "login_server is required".toList))
  | some ls =>
  if ls = [] then ([], .error (.badConfig "login_server is required".toList))
  else
  match splitSep VERSION_PATH_SEP version_key with
  | [project_id, service_id, version_id] =>
    if ¬ is_app_name_valid project_id then
      ([], .error (.badConfig "Invalid project ID".toList))
    else
      match env.projects project_id service_id version_id with
      | none => ([], .error (.badConfig "Version not found".toList))
      | some vd =>
        let revision_key :=
          mkRevisionKey project_id service_id version_id vd.revision
        let r := ensure_api_server env project_id api
        match r.2 with
        | .error e => (Ev.ensureApiCall project_id :: r.1, .error e)
        | .ok (_api_port, api') =>
          let evs0 := Ev.ensureApiCall project_id :: r.1 ++
            [Ev.sourceEnsure revision_key]
          if knownPython vd.runtime then
            startTail env project_id version_key revision_key app_port
              probeReady evs0 api'
          else if vd.runtime = RT_JAVA then
            if maxMemoryOf env vd - 250 ≤ 0 then
              (evs0, .error (.badConfig
                "Memory for Java applications must be greater than 250MB".toList))
            else
              startTail env project_id version_key revision_key app_port
                probeReady evs0 api'
          else
            (evs0, .error (.badConfig "Unknown runtime".toList))
  | _ => ([], .error .unpack)

/-- Model of `stop_app_instance` (lines 519 to 562): validate the project
id, find the first Monit entry matching the instance pattern (an internal
error when there is none), unregister the instance parsed from the found
watch, tear the watch down, stop the API server when no project-prefixed
entry outside the pattern remains, reload Monit and clean old sources. -/
def stop_app_instance (env : Env) (version_key : Str) (port : Int)
    (monit_entries : List Str) (api : List (Str × Int)) :
    List Ev × Except Err (List (Str × Int)) :=
  let project_id := (splitSep VERSION_PATH_SEP version_key).headD []
  if ¬ is_app_name_valid project_id then
    ([], .error (.badConfig "Invalid project ID".toList))
  else
    match monit_entries.find? (fun e => instanceKeyMatch version_key port e) with
    | none => ([], .error (.noEntries version_key port))
    | some watch =>
      let parsed := parseInstanceEntry watch
      let evs1 := [Ev.retract parsed.1 parsed.2]
      let r2 := unmonitor_and_terminate env watch
      match r2.2 with
      | .error e => (evs1 ++ r2.1, .error e)
      | .ok _ =>
        let project_pre := instanceWatchPre ++ project_id
        let remaining := monit_entries.filter (fun e =>
          isPre project_pre e && ¬ instanceKeyMatch version_key port e)
        let r3 := if remaining.isEmpty then stop_api_server env project_id api
                  else ([], .ok api)
        match r3.2 with
        | .error e => (evs1 ++ r2.1 ++ r3.1, .error e)
        | .ok api'' =>
          (evs1 ++ r2.1 ++ r3.1 ++ [Ev.monitReload, Ev.cleanSources],
           .ok api'')

/-- The registry contents under `VERSION_REGISTRATION_NODE`: for each
version key child, its instance entry children (entry name, payload). -/
abbrev Registry := List (Str × List (Str × Str))

/-- The machine IP of a registry entry name (`instance_entry.split(':')[0]`,
line 877). -/
def entryIp (entry : Str) : Str :=
  (splitSep ':' entry).headD []

/-- The port of a registry entry name (`int(instance_entry.split(':')[-1])`,
line 881). -/
def entryPort (entry : Str) : Int :=
  (parseNat ((splitSep ':' entry).getLastD []) : Int)

/-- The `registered_instances` computation of `declare_instance_nodes`
(lines 873 to 885): every registry entry whose machine IP equals this
node's private IP, as an Instance with the revision key joined from the
version key and the payload. -/
def registeredInstances (reg : Registry) (ip : Str) : List Instance :=
  reg.foldr (fun v acc =>
    v.2.foldr (fun e acc2 =>
      if entryIp e.1 = ip then
        ⟨v.1 ++ VERSION_PATH_SEP :: e.2, entryPort e.1⟩ :: acc2
      else acc2) acc) []

/-- Model of `declare_instance_nodes` (lines 866 to 893): unregister the
registered instances that are not running, register the running instances
that are not registered.  Python sets are modelled as deduplicated lists;
set difference is membership filtering. -/
def declare_instance_nodes (running : List Instance) (reg : Registry)
    (ip : Str) : List Ev :=
  let registered := (registeredInstances reg ip).dedup
  (registered.filter (fun i => ¬ i ∈ running)).map
      (fun i => Ev.retract i.revision_key i.port)
    ++ ((running.dedup).filter (fun i => ¬ i ∈ registered)).map
      (fun i => Ev.declare i.revision_key i.port)

/-! ### Port assignment (claim C1) -/

lemma pickStep_eq_min (s p : Int) :
    (if p ≤ s then p - 1 else s) = min s (p - 1) := by
  split <;> omega

lemma pickFold_all_gt : ∀ (L : List Int) (s : Int), (∀ p ∈ L, s < p) →
    L.foldl (fun s p => if p ≤ s then p - 1 else s) s = s := by
  intro L
  induction L with
  | nil => intro s _; rfl
  | cons p L ih =>
    intro s h
    have hp : s < p := h p (List.mem_cons_self p L)
    have : (if p ≤ s then p - 1 else s) = s := by omega
    simpa [List.foldl_cons, this] using
      ih s (fun q hq => h q (List.mem_cons_of_mem p hq))

lemma pickFold_min : ∀ (L : List Int) (s m : Int), m ∈ L →
    (∀ p ∈ L, m ≤ p) →
    L.foldl (fun s p => if p ≤ s then p - 1 else s) s = min s (m - 1) := by
  intro L
  induction L with
  | nil => intro s m hm; exact absurd hm (List.not_mem_nil m)
  | cons p L ih =>
    intro s m hm hlb
    have hmp : m ≤ p := hlb p (List.mem_cons_self p L)
    rw [List.foldl_cons]
    by_cases hmem : m ∈ L
    · rw [ih (if p ≤ s then p - 1 else s) m hmem
        (fun q hq => hlb q (List.mem_cons_of_mem p hq))]
      rw [pickStep_eq_min]
      omega
    · have hm' : m = p := by
        rcases List.mem_cons.mp hm with h | h
        · exact h
        · exact absurd h hmem
      rw [pickFold_all_gt L _ (fun q hq => by
        have hq' := hlb q (List.mem_cons_of_mem p hq)
        rw [pickStep_eq_min]; omega)]
      rw [pickStep_eq_min, hm']

lemma pickPort_nil : pickPort [] = MAX_API_SERVER_PORT := rfl

lemma pickPort_min (ports : List Int) (m : Int) (hm : m ∈ ports)
    (hlb : ∀ p ∈ ports, m ≤ p) :
    pickPort ports = min MAX_API_SERVER_PORT (m - 1) := by
  unfold pickPort
  rw [pickFold_min ports MAX_API_SERVER_PORT m hm hlb]

lemma alistLookup_append_self (st : List (Str × Int)) (k : Str) (v : Int)
    (h : alistLookup st k = none) :
    alistLookup (st ++ [(k, v)]) k = some v := by
  induction st with
  | nil => simp [alistLookup]
  | cons e rest ih =>
    unfold alistLookup at h ⊢
    by_cases hk : e.1 = k
    · simp [hk] at h
    · simpa [hk] using ih (by simpa [hk] using h)

/-- Claim C1: `ensure_api_server` returns the cached port for a project
already in the map, touching nothing; for a new project it assigns
the minimum of `MAX_API_SERVER_PORT` and one less than the least
assigned port (`MAX_API_SERVER_PORT` itself when no port is assigned),
caches that port for the project and returns it. -/
theorem ensure_api_server_port_assignment (env : Env) (projectId : Str)
    (st : List (Str × Int)) :
    (∀ c, alistLookup st projectId = some c →
      ensure_api_server env projectId st = ([], .ok (c, st))) ∧
    (alistLookup st projectId = none →
      (st.map Prod.snd = [] → pickPort (st.map Prod.snd) = MAX_API_SERVER_PORT) ∧
      (∀ m, m ∈ st.map Prod.snd → (∀ p ∈ st.map Prod.snd, m ≤ p) →
        pickPort (st.map Prod.snd) = min MAX_API_SERVER_PORT (m - 1)) ∧
      (env.monitStartOk
          (apiServerFullWatch projectId (pickPort (st.map Prod.snd))) = true →
        ensure_api_server env projectId st =
          ([Ev.apiCreateConfig (apiServerWatch projectId),
            Ev.apiMonitStart
              (apiServerFullWatch projectId (pickPort (st.map Prod.snd)))],
           .ok (pickPort (st.map Prod.snd),
                st ++ [(projectId, pickPort (st.map Prod.snd))])) ∧
        alistLookup (st ++ [(projectId, pickPort (st.map Prod.snd))])
          projectId = some (pickPort (st.map Prod.snd)))) := by
  constructor
  · intro c hc
    unfold ensure_api_server
    rw [hc]
  · intro hn
    refine ⟨?_, ?_, ?_⟩
    · intro h; rw [h]; rfl
    · intro m hm hlb; exact pickPort_min _ m hm hlb
    · intro hok
      constructor
      · unfold ensure_api_server
        rw [hn]
        simp only [hok, if_true]
      · exact alistLookup_append_self st projectId _ hn

/-- Equality of modelled results is decidable. -/
instance exceptDecEq {e a : Type} [DecidableEq e] [DecidableEq a] :
    DecidableEq (Except e a) := fun x y =>
  match x, y with
  | .ok u, .ok v => decidable_of_iff (u = v) (by simp)
  | .ok _, .error _ => isFalse (by simp)
  | .error _, .ok _ => isFalse (by simp)
  | .error u, .error v => decidable_of_iff (u = v) (by simp)

/-- Witness for claim C1: with assigned ports 19997 and 19998 a new
project is assigned and cached port 19996; an existing project gets its
cached port back untouched; with no assigned ports the port is 19999. -/
theorem ensure_api_server_port_assignment_example :
    ensure_api_server
        { monitStartOk := fun _ => true, unmonitorFetch := fun _ _ => none,
          projects := fun _ _ _ => none, runtimeParamsMaxMemory := none,
          defaultMaxMemory := 400, instanceClasses := fun _ => none,
          private_ip := [] }
        "guestbook".toList
        [("a".toList, 19997), ("b".toList, 19998)] =
      ([Ev.apiCreateConfig (apiServerWatch "guestbook".toList),
        Ev.apiMonitStart (apiServerFullWatch "guestbook".toList 19996)],
       .ok (19996, [("a".toList, 19997), ("b".toList, 19998),
                    ("guestbook".toList, 19996)])) ∧
    pickPort [19997, 19998] = min MAX_API_SERVER_PORT (19997 - 1) ∧
    pickPort [] = MAX_API_SERVER_PORT ∧
    ensure_api_server
        { monitStartOk := fun _ => true, unmonitorFetch := fun _ _ => none,
          projects := fun _ _ _ => none, runtimeParamsMaxMemory := none,
          defaultMaxMemory := 400, instanceClasses := fun _ => none,
          private_ip := [] }
        "a".toList [("a".toList, 19997), ("b".toList, 19998)] =
      ([], .ok (19997, [("a".toList, 19997), ("b".toList, 19998)])) := by
  refine ⟨?_, by decide, by decide, ?_⟩
  · have h := ((ensure_api_server_port_assignment
      { monitStartOk := fun _ => true, unmonitorFetch := fun _ _ => none,
        projects := fun _ _ _ => none, runtimeParamsMaxMemory := none,
        defaultMaxMemory := 400, instanceClasses := fun _ => none,
        private_ip := [] }
      "guestbook".toList
      [("a".toList, 19997), ("b".toList, 19998)]).2 (by decide)).2.2
      (by decide)
    exact h.1.trans (by decide)
  · exact (ensure_api_server_port_assignment
      { monitStartOk := fun _ => true, unmonitorFetch := fun _ _ => none,
        projects := fun _ _ _ => none, runtimeParamsMaxMemory := none,
        defaultMaxMemory := 400, instanceClasses := fun _ => none,
        private_ip := [] }
      "a".toList [("a".toList, 19997), ("b".toList, 19998)]).1 19997
      (by decide)

/-! ### Decimal representations and watch-name round trips (claim C9) -/

lemma digitsAux_eq_digits : ∀ (fuel n : Nat), n ≤ fuel →
    digitsAux fuel n = Nat.digits 10 n := by
  intro fuel
  induction fuel with
  | zero =>
    intro n h
    interval_cases n
    rw [Nat.digits_zero]
    rfl
  | succ f ih =>
    intro n h
    match n with
    | 0 =>
      rw [Nat.digits_zero]
      rfl
    | n + 1 =>
      rw [Nat.digits_def' (b := 10) (by norm_num) (Nat.succ_pos n)]
      unfold digitsAux
      rw [ih ((n + 1) / 10) (by omega)]

lemma digitChar_ne_dash {d : Nat} (h : d < 10) : digitChar d ≠ '-' := by
  interval_cases d <;> decide

lemma digitChar_toNat {d : Nat} (h : d < 10) : (digitChar d).toNat = 48 + d := by
  interval_cases d <;> decide

lemma natRepr_ne_dash (n : Nat) : ∀ c ∈ natRepr n, c ≠ '-' := by
  intro c hc
  unfold natRepr at hc
  by_cases h0 : n = 0
  · simp only [h0, if_true, List.mem_singleton] at hc
    subst hc
    decide
  · simp only [h0, if_false, List.mem_reverse, List.mem_map] at hc
    obtain ⟨d, hd, rfl⟩ := hc
    rw [digitsAux_eq_digits n n (le_refl n)] at hd
    exact digitChar_ne_dash (Nat.digits_lt_base (by norm_num) hd)

lemma foldr_digitChar (l : List Nat) (h : ∀ d ∈ l, d < 10) :
    List.foldr (fun d a => a * 10 + ((digitChar d).toNat - 48)) 0 l =
      Nat.ofDigits 10 l := by
  induction l with
  | nil => simp [Nat.ofDigits]
  | cons d t ih =>
    rw [List.foldr_cons, Nat.ofDigits_cons,
      ih (fun q hq => h q (List.mem_cons_of_mem d hq)),
      digitChar_toNat (h d (List.mem_cons_self d t))]
    omega

lemma parseNat_natRepr (n : Nat) : parseNat (natRepr n) = n := by
  unfold parseNat natRepr
  by_cases h0 : n = 0
  · simp [h0]
  · simp only [h0, if_false]
    rw [List.foldl_reverse, List.foldr_map, foldr_digitChar]
    · rw [digitsAux_eq_digits n n (le_refl n)]
      exact Nat.ofDigits_digits 10 n
    · intro d hd
      rw [digitsAux_eq_digits n n (le_refl n)] at hd
      exact Nat.digits_lt_base (by norm_num) hd

lemma takeWhile_ne_append (b : Char) (A B : Str) (hA : ∀ a ∈ A, a ≠ b) :
    (A ++ b :: B).takeWhile (fun c => ¬ c = b) = A := by
  induction A with
  | nil => simp [List.takeWhile_cons]
  | cons a t ih =>
    have ha : a ≠ b := hA a (List.mem_cons_self a t)
    rw [List.cons_append, List.takeWhile_cons, if_pos (by simp [ha]),
      ih (fun q hq => hA q (List.mem_cons_of_mem a hq))]

lemma dropWhile_ne_append (b : Char) (A B : Str) (hA : ∀ a ∈ A, a ≠ b) :
    (A ++ b :: B).dropWhile (fun c => ¬ c = b) = b :: B := by
  induction A with
  | nil => simp [List.dropWhile_cons]
  | cons a t ih =>
    have ha : a ≠ b := hA a (List.mem_cons_self a t)
    rw [List.cons_append, List.dropWhile_cons, if_pos (by simp [ha])]
    exact ih (fun q hq => hA q (List.mem_cons_of_mem a hq))

lemma splitLast_append (X D : Str) (hD : ∀ c ∈ D, c ≠ '-') :
    splitLast '-' (X ++ '-' :: D) = (X, D) := by
  simp only [splitLast]
  have hrev : (X ++ '-' :: D).reverse = D.reverse ++ '-' :: X.reverse := by
    simp
  rw [hrev,
    takeWhile_ne_append '-' D.reverse X.reverse
      (fun c hc => hD c (List.mem_reverse.mp hc)),
    dropWhile_ne_append '-' D.reverse X.reverse
      (fun c hc => hD c (List.mem_reverse.mp hc))]
  simp

lemma intRepr_nonneg (port : Int) (h : 0 ≤ port) :
    intRepr port = natRepr port.toNat := by
  unfold intRepr
  simp [Int.not_lt.mpr h]

/-- Claim C9: watch names round-trip.  The api-server watch name built by
`ensure_api_server` parses back (as `populate_api_servers` does) to the
project id and port; the instance watch name built by `start_app` parses
back (as `recover_state` and the stop paths do) to the revision key and
port. -/
theorem watch_name_roundtrip :
    (∀ (projectId : Str) (port : Int), 0 ≤ port →
      api_server_info (apiServerFullWatch projectId port) = (projectId, port)) ∧
    (∀ (revisionKey : Str) (port : Int), 0 ≤ port →
      parseInstanceEntry (instanceFullWatch revisionKey port) =
        (revisionKey, port)) := by
  have hsplit : ∀ (X : Str) (port : Int), 0 ≤ port →
      splitLast '-' (X ++ '-' :: intRepr port) = (X, intRepr port) := by
    intro X port h
    refine splitLast_append X (intRepr port) ?_
    rw [intRepr_nonneg port h]
    exact natRepr_ne_dash port.toNat
  have hparse : ∀ (port : Int), 0 ≤ port →
      (parseNat (intRepr port) : Int) = port := by
    intro port h
    rw [intRepr_nonneg port h, parseNat_natRepr]
    exact Int.toNat_of_nonneg h
  constructor
  · intro projectId port h
    simp only [api_server_info, apiServerFullWatch, apiServerWatch]
    rw [hsplit (apiServerWatchPre ++ projectId) port h]
    simp only [List.append_assoc]
    rw [List.drop_left, hparse port h]
  · intro revisionKey port h
    simp only [parseInstanceEntry, instanceFullWatch, instanceWatch,
      List.append_assoc]
    rw [List.drop_left, hsplit revisionKey port h]
    simp only
    rw [hparse port h]

/-- Witness for claim C9: concrete round trips for an api-server watch at
port 19999 and an instance watch at port 8080. -/
theorem watch_name_roundtrip_example :
    api_server_info (apiServerFullWatch "guestbook".toList 19999) =
      ("guestbook".toList, 19999) ∧
    parseInstanceEntry (instanceFullWatch "proj_default_v1_3".toList 8080) =
      ("proj_default_v1_3".toList, 8080) :=
  ⟨watch_name_roundtrip.1 "guestbook".toList 19999 (by decide),
   watch_name_roundtrip.2 "proj_default_v1_3".toList 8080 (by decide)⟩

/-! ### The health probe (claim C5) -/

lemma waitLoop_true_iff (attempt : Nat → Option Nat) :
    ∀ (r t : Nat), waitLoop attempt r t = true ↔
      ∃ k, k < r ∧ (attempt (t + k)).isSome = true := by
  intro r
  induction r with
  | zero =>
    intro t
    simp [waitLoop]
  | succ n ih =>
    intro t
    unfold waitLoop
    match hat : attempt t with
    | some code =>
      simp only [true_iff]
      exact ⟨0, Nat.succ_pos n, by rw [Nat.add_zero, hat]; rfl⟩
    | none =>
      rw [ih (t + 1)]
      constructor
      · rintro ⟨k, hk, hsome⟩
        exact ⟨k + 1, by omega, by rwa [show t + (k + 1) = t + 1 + k by omega]⟩
      · rintro ⟨k, hk, hsome⟩
        match k with
        | 0 =>
          rw [Nat.add_zero, hat] at hsome
          exact absurd hsome (by simp)
        | k + 1 =>
          exact ⟨k, by omega, by rwa [show t + 1 + k = t + (k + 1) by omega]⟩

/-- Claim C5: the health probe polls the health-check URL of this node
and port with one retry per `BACKOFF_TIME` second over a
`START_APP_TIMEOUT` of 180 seconds; it returns ready exactly when one of
those attempts receives an HTTP response (no matter the status code, and
redirects are passed through unmodified rather than followed), so an
attempt sequence of pure I/O errors exhausts the retries and returns
not-ready. -/
theorem wait_on_app_ready_iff (attempt : Nat → Option Nat) (ip : Str)
    (port : Int) :
    (wait_on_app attempt = true ↔
      ∃ k, k < START_APP_TIMEOUT / BACKOFF_TIME ∧
        (attempt k).isSome = true) ∧
    START_APP_TIMEOUT = 180 ∧ BACKOFF_TIME = 1 ∧
    healthUrl ip port =
      "http://".toList ++ ip ++ ':' :: intRepr port ++
        "/_ah/health_check".toList ∧
    (∀ code, noRedirectionResponse code = code) := by
  refine ⟨?_, rfl, rfl, rfl, fun _ => rfl⟩
  unfold wait_on_app waitRetries
  rw [waitLoop_true_iff attempt (START_APP_TIMEOUT / BACKOFF_TIME) 0]
  simp only [Nat.zero_add]

/-! ### Registry reconciliation (claim C4) -/

lemma mem_foldr_children (children : List (Str × Str)) (vk : Str) (ip : Str)
    (acc : List Instance) (i : Instance) :
    (i ∈ children.foldr (fun e acc2 =>
        if entryIp e.1 = ip then
          (⟨vk ++ VERSION_PATH_SEP :: e.2, entryPort e.1⟩ : Instance) :: acc2
        else acc2) acc) ↔
      (∃ e ∈ children, entryIp e.1 = ip ∧
        i = ⟨vk ++ VERSION_PATH_SEP :: e.2, entryPort e.1⟩) ∨ i ∈ acc := by
  induction children with
  | nil => simp
  | cons e t ih =>
    rw [List.foldr_cons]
    by_cases he : entryIp e.1 = ip
    · simp only [he, if_true, List.mem_cons, ih]
      aesop
    · simp only [he, if_false, ih, List.mem_cons]
      aesop

lemma mem_registeredInstances (reg : Registry) (ip : Str) (i : Instance) :
    i ∈ registeredInstances reg ip ↔
      ∃ v ∈ reg, ∃ e ∈ v.2, entryIp e.1 = ip ∧
        i = ⟨v.1 ++ VERSION_PATH_SEP :: e.2, entryPort e.1⟩ := by
  unfold registeredInstances
  induction reg with
  | nil => simp
  | cons v t ih =>
    rw [List.foldr_cons, mem_foldr_children, ih]
    simp only [List.mem_cons]
    aesop

lemma mem_retract_part (A B : List Instance) (i : Instance) :
    (Ev.retract i.revision_key i.port ∈
      (A.map fun j => Ev.retract j.revision_key j.port) ++
        (B.map fun j => Ev.declare j.revision_key j.port)) ↔ i ∈ A := by
  rw [List.mem_append, List.mem_map, List.mem_map]
  constructor
  · rintro (⟨j, hj, hev⟩ | ⟨j, hj, hev⟩)
    · cases i
      cases j
      simp only [Ev.retract.injEq] at hev
      simp_all
    · exact absurd hev (by simp)
  · intro h
    exact Or.inl ⟨i, h, rfl⟩

lemma mem_declare_part (A B : List Instance) (i : Instance) :
    (Ev.declare i.revision_key i.port ∈
      (A.map fun j => Ev.retract j.revision_key j.port) ++
        (B.map fun j => Ev.declare j.revision_key j.port)) ↔ i ∈ B := by
  rw [List.mem_append, List.mem_map, List.mem_map]
  constructor
  · rintro (⟨j, hj, hev⟩ | ⟨j, hj, hev⟩)
    · exact absurd hev (by simp)
    · cases i
      cases j
      simp only [Ev.declare.injEq] at hev
      simp_all
  · intro h
    exact Or.inr ⟨i, h, rfl⟩

/-- Claim C4: `declare_instance_nodes` retracts exactly the instances that
are registered (a registry entry under some version key whose machine IP
equals this node's private IP) but not in the live set, declares exactly
the live instances that are not registered, and instances in both sets
are left untouched. -/
theorem declare_instance_nodes_reconciles (running : List Instance)
    (reg : Registry) (ip : Str) (i : Instance) :
    (Ev.retract i.revision_key i.port ∈ declare_instance_nodes running reg ip ↔
      i ∈ registeredInstances reg ip ∧ i ∉ running) ∧
    (Ev.declare i.revision_key i.port ∈ declare_instance_nodes running reg ip ↔
      i ∈ running ∧ i ∉ registeredInstances reg ip) ∧
    (i ∈ registeredInstances reg ip ↔
      ∃ v ∈ reg, ∃ e ∈ v.2, entryIp e.1 = ip ∧
        i = ⟨v.1 ++ VERSION_PATH_SEP :: e.2, entryPort e.1⟩) ∧
    (i ∈ running → i ∈ registeredInstances reg ip →
      Ev.retract i.revision_key i.port ∉ declare_instance_nodes running reg ip ∧
      Ev.declare i.revision_key i.port ∉ declare_instance_nodes running reg ip) := by
  have h1 : Ev.retract i.revision_key i.port ∈
      declare_instance_nodes running reg ip ↔
      i ∈ registeredInstances reg ip ∧ i ∉ running := by
    unfold declare_instance_nodes
    rw [mem_retract_part, List.mem_filter, List.mem_dedup]
    simp
  have h2 : Ev.declare i.revision_key i.port ∈
      declare_instance_nodes running reg ip ↔
      i ∈ running ∧ i ∉ registeredInstances reg ip := by
    unfold declare_instance_nodes
    rw [mem_declare_part, List.mem_filter, List.mem_dedup]
    simp
  refine ⟨h1, h2, mem_registeredInstances reg ip i, ?_⟩
  intro hrun hreg
  constructor
  · rw [h1]
    rintro ⟨_, hnot⟩
    exact hnot hrun
  · rw [h2]
    rintro ⟨_, hnot⟩
    exact hnot hreg

/-- Witness for claim C4: a registry with one matching local entry, one
entry of another machine, and one stale local entry, reconciled against a
live set containing the matching instance: only the stale entry is
retracted and the live instance is left untouched. -/
theorem declare_instance_nodes_reconciles_example :
    (⟨"a_b_c_1".toList, 80⟩ : Instance) ∈
        registeredInstances
          [("a_b_c".toList,
            [("10.0.0.2:80".toList, "1".toList),
             ("10.0.0.3:81".toList, "1".toList),
             ("10.0.0.2:99".toList, "2".toList)])] "10.0.0.2".toList ∧
    Ev.retract "a_b_c_1".toList 80 ∉
      declare_instance_nodes [⟨"a_b_c_1".toList, 80⟩]
        [("a_b_c".toList,
          [("10.0.0.2:80".toList, "1".toList),
           ("10.0.0.3:81".toList, "1".toList),
           ("10.0.0.2:99".toList, "2".toList)])] "10.0.0.2".toList ∧
    Ev.retract "a_b_c_2".toList 99 ∈
      declare_instance_nodes [⟨"a_b_c_1".toList, 80⟩]
        [("a_b_c".toList,
          [("10.0.0.2:80".toList, "1".toList),
           ("10.0.0.3:81".toList, "1".toList),
           ("10.0.0.2:99".toList, "2".toList)])] "10.0.0.2".toList := by
  refine ⟨by decide, ?_, by decide⟩
  have h := (declare_instance_nodes_reconciles [⟨"a_b_c_1".toList, 80⟩]
    [("a_b_c".toList,
      [("10.0.0.2:80".toList, "1".toList),
       ("10.0.0.3:81".toList, "1".toList),
       ("10.0.0.2:99".toList, "2".toList)])] "10.0.0.2".toList
    ⟨"a_b_c_1".toList, 80⟩).2.2.2 (by decide) (by decide)
  exact h.1

/-! ### Ordering of effects in the start path (claims C2 and C3) -/

/-- Recognizer for `ensure_api_server` call events. -/
def isEnsureApi : Ev → Bool
  | .ensureApiCall _ => true
  | _ => false

/-- Recognizer for instance config-write events. -/
def isCreateConfig : Ev → Bool
  | .createConfig _ => true
  | _ => false

/-- Recognizer for source-ensure completion events. -/
def isSourceEnsure : Ev → Bool
  | .sourceEnsure _ => true
  | _ => false

/-- Recognizer for instance supervisor-start events. -/
def isMonitStart : Ev → Bool
  | .monitStart _ => true
  | _ => false

/-- Recognizer for registry declare events. -/
def isDeclare : Ev → Bool
  | .declare _ _ => true
  | _ => false

/-- Every event of a trace satisfying `pa` occurs strictly before every
event satisfying `pb`. -/
def evPrecedes (tr : List Ev) (pa pb : Ev → Bool) : Prop :=
  ∀ (i j : Nat) (a b : Ev), tr[i]? = some a → tr[j]? = some b →
    pa a = true → pb b = true → i < j

lemma evPrecedes_split (xs ys : List Ev) (pa pb : Ev → Bool)
    (hys : ∀ e ∈ ys, pa e = false) (hxs : ∀ e ∈ xs, pb e = false) :
    evPrecedes (xs ++ ys) pa pb := by
  intro i j a b ha hb hpa hpb
  have hi : i < xs.length := by
    by_contra hge
    push_neg at hge
    rw [List.getElem?_append_right hge] at ha
    have hm := List.getElem?_mem ha
    rw [hys a hm] at hpa
    exact Bool.false_ne_true hpa
  have hj : xs.length ≤ j := by
    by_contra hlt
    push_neg at hlt
    rw [List.getElem?_append, if_pos hlt] at hb
    have hm := List.getElem?_mem hb
    rw [hxs b hm] at hpb
    exact Bool.false_ne_true hpb
  omega

lemma ensure_api_server_trace (env : Env) (pid : Str)
    (api : List (Str × Int)) :
    (ensure_api_server env pid api).1 = [] ∨
    (ensure_api_server env pid api).1 =
      [Ev.apiCreateConfig (apiServerWatch pid),
       Ev.apiMonitStart
         (apiServerFullWatch pid (pickPort (api.map Prod.snd)))] := by
  unfold ensure_api_server
  match alistLookup api pid with
  | some port => exact Or.inl rfl
  | none =>
    by_cases hok : env.monitStartOk
        (apiServerFullWatch pid (pickPort (api.map Prod.snd)))
    · right
      simp [hok]
    · right
      simp [hok]

lemma apiTrace_preds (env : Env) (pid : Str) (api : List (Str × Int)) :
    ∀ e ∈ (ensure_api_server env pid api).1,
      isEnsureApi e = false ∧ isCreateConfig e = false ∧
      isSourceEnsure e = false ∧ isMonitStart e = false ∧
      isDeclare e = false := by
  intro e he
  rcases ensure_api_server_trace env pid api with h | h <;> rw [h] at he
  · exact absurd he (List.not_mem_nil e)
  · rcases List.mem_cons.mp he with rfl | he'
    · exact ⟨rfl, rfl, rfl, rfl, rfl⟩
    · rcases List.mem_singleton.mp he' with rfl
      exact ⟨rfl, rfl, rfl, rfl, rfl⟩

lemma add_routing_preds (inst : Instance) (pr : Bool) :
    ∀ e ∈ add_routing inst pr,
      isEnsureApi e = false ∧ isCreateConfig e = false ∧
      isSourceEnsure e = false ∧ isMonitStart e = false := by
  intro e he
  unfold add_routing at he
  rcases List.mem_cons.mp he with rfl | he'
  · exact ⟨rfl, rfl, rfl, rfl⟩
  · cases pr
    · simp at he'
    · rcases List.mem_singleton.mp (by simpa using he') with rfl
      exact ⟨rfl, rfl, rfl, rfl⟩

lemma start_app_ok_shape (env : Env) (vk : Str) (cfg : Config) (pr : Bool)
    (api : List (Str × Int)) (tr : List Ev) (api' : List (Str × Int))
    (h : start_app env vk cfg pr api = (tr, .ok api')) :
    ∃ (pid sid vid : Str) (vd : VersionDetails) (p : Int),
      splitSep VERSION_PATH_SEP vk = [pid, sid, vid] ∧
      cfg.app_port = some p ∧
      env.projects pid sid vid = some vd ∧
      tr = (Ev.ensureApiCall pid ::
        ((ensure_api_server env pid api).1 ++
          [Ev.sourceEnsure (mkRevisionKey pid sid vid vd.revision)])) ++
        ([Ev.createConfig
            (instanceWatch (mkRevisionKey pid sid vid vd.revision)),
          Ev.monitStart
            (instanceFullWatch (mkRevisionKey pid sid vid vd.revision) p),
          Ev.zkEnsureVersion vk, Ev.logrotate pid] ++
         add_routing ⟨mkRevisionKey pid sid vid vd.revision, p⟩ pr) := by
  unfold start_app at h
  match hport : cfg.app_port with
  | none =>
    simp only [hport] at h
    simp at h
  | some p =>
  simp only [hport] at h
  match hls : cfg.login_server with
  | none =>
    simp only [hls] at h
    simp at h
  | some ls =>
  simp only [hls] at h
  by_cases hle : ls = []
  · rw [if_pos hle] at h; simp at h
  rw [if_neg hle] at h
  match hsp : splitSep VERSION_PATH_SEP vk with
  | [] => simp only [hsp] at h; simp at h
  | [x] => simp only [hsp] at h; simp at h
  | [x, y] => simp only [hsp] at h; simp at h
  | x :: y :: z :: w :: rest => simp only [hsp] at h; simp at h
  | [pid, sid, vid] =>
    simp only [hsp] at h
    by_cases hval : is_app_name_valid pid
    · rw [if_neg (by simp [hval])] at h
      match hproj : env.projects pid sid vid with
      | none =>
        simp only [hproj] at h
        simp at h
      | some vd =>
        simp only [hproj] at h
        match hens : (ensure_api_server env pid api).2 with
        | .error e =>
          simp only [hens] at h
          simp at h
        | .ok (aport, api2) =>
          simp only [hens] at h
          refine ⟨pid, sid, vid, vd, p, rfl, rfl, hproj, ?_⟩
          have htail : ∀ evs0 api3,
              startTail env pid vk (mkRevisionKey pid sid vid vd.revision)
                p pr evs0 api3 = (tr, .ok api') →
              tr = evs0 ++
                ([Ev.createConfig
                    (instanceWatch (mkRevisionKey pid sid vid vd.revision)),
                  Ev.monitStart
                    (instanceFullWatch (mkRevisionKey pid sid vid vd.revision) p),
                  Ev.zkEnsureVersion vk, Ev.logrotate pid] ++
                 add_routing ⟨mkRevisionKey pid sid vid vd.revision, p⟩ pr) := by
            intro evs0 api3 ht
            unfold startTail at ht
            simp only [] at ht
            by_cases hok : env.monitStartOk
                (instanceFullWatch (mkRevisionKey pid sid vid vd.revision) p)
            · rw [if_pos hok] at ht
              have := congrArg Prod.fst ht
              simpa using this.symm
            · rw [if_neg hok] at ht
              simp at ht
          by_cases hpy : knownPython vd.runtime
          · rw [if_pos hpy] at h
            exact htail _ _ h
          · rw [if_neg hpy] at h
            by_cases hjava : vd.runtime = RT_JAVA
            · rw [if_pos hjava] at h
              by_cases hmem : maxMemoryOf env vd - 250 ≤ 0
              · rw [if_pos hmem] at h; simp at h
              · rw [if_neg hmem] at h
                exact htail _ _ h
            · rw [if_neg hjava] at h; simp at h
    · rw [if_pos (by simp [hval])] at h
      simp at h

/-- Claim C2: within one successful `start_app` execution the api-server
ensure step precedes the supervisor config write, the source ensure for
the revision key precedes the supervisor start of that revision's watch,
and the supervisor start precedes the registry declare of the instance
(which exists whenever the probe reported ready). -/
theorem start_app_effect_order (env : Env) (vk : Str) (cfg : Config)
    (pr : Bool) (api : List (Str × Int)) (tr : List Ev)
    (api' : List (Str × Int))
    (h : start_app env vk cfg pr api = (tr, .ok api')) :
    evPrecedes tr isEnsureApi isCreateConfig ∧
    evPrecedes tr isSourceEnsure isMonitStart ∧
    evPrecedes tr isMonitStart isDeclare ∧
    ∃ (pid rk : Str) (p : Int),
      Ev.ensureApiCall pid ∈ tr ∧
      Ev.sourceEnsure rk ∈ tr ∧
      Ev.createConfig (instanceWatch rk) ∈ tr ∧
      Ev.monitStart (instanceFullWatch rk p) ∈ tr ∧
      (pr = true → Ev.declare rk p ∈ tr) := by
  obtain ⟨pid, sid, vid, vd, p, hsp, hport, hproj, htr⟩ :=
    start_app_ok_shape env vk cfg pr api tr api' h
  have hA := apiTrace_preds env pid api
  have hR := add_routing_preds
    ⟨mkRevisionKey pid sid vid vd.revision, p⟩ pr
  constructor
  · have htr1 : tr = [Ev.ensureApiCall pid] ++
        (((ensure_api_server env pid api).1 ++
          [Ev.sourceEnsure (mkRevisionKey pid sid vid vd.revision)]) ++
         ([Ev.createConfig
             (instanceWatch (mkRevisionKey pid sid vid vd.revision)),
           Ev.monitStart
             (instanceFullWatch (mkRevisionKey pid sid vid vd.revision) p),
           Ev.zkEnsureVersion vk, Ev.logrotate pid] ++
          add_routing ⟨mkRevisionKey pid sid vid vd.revision, p⟩ pr)) := by
      rw [htr]
      simp
    rw [htr1]
    refine evPrecedes_split _ _ _ _ ?_ ?_
    · intro e he
      rcases List.mem_append.mp he with h1 | h2
      · rcases List.mem_append.mp h1 with h3 | h4
        · exact (hA e h3).1
        · rcases List.mem_singleton.mp h4 with rfl
          rfl
      · rcases List.mem_append.mp h2 with h3 | h4
        · rcases List.mem_cons.mp h3 with rfl | h5
          · rfl
          rcases List.mem_cons.mp h5 with rfl | h6
          · rfl
          rcases List.mem_cons.mp h6 with rfl | h7
          · rfl
          rcases List.mem_singleton.mp h7 with rfl
          rfl
        · exact (hR e h4).1
    · intro e he
      rcases List.mem_singleton.mp he with rfl
      rfl
  constructor
  · rw [htr]
    refine evPrecedes_split _ _ _ _ ?_ ?_
    · intro e he
      rcases List.mem_append.mp he with h3 | h4
      · rcases List.mem_cons.mp h3 with rfl | h5
        · rfl
        rcases List.mem_cons.mp h5 with rfl | h6
        · rfl
        rcases List.mem_cons.mp h6 with rfl | h7
        · rfl
        rcases List.mem_singleton.mp h7 with rfl
        rfl
      · exact (hR e h4).2.2.1
    · intro e he
      rcases List.mem_cons.mp he with rfl | h1
      · rfl
      rcases List.mem_append.mp h1 with h3 | h4
      · exact (hA e h3).2.2.2.1
      · rcases List.mem_singleton.mp h4 with rfl
        rfl
  constructor
  · have htr3 : tr = ((Ev.ensureApiCall pid ::
        ((ensure_api_server env pid api).1 ++
          [Ev.sourceEnsure (mkRevisionKey pid sid vid vd.revision)])) ++
        [Ev.createConfig
           (instanceWatch (mkRevisionKey pid sid vid vd.revision)),
         Ev.monitStart
           (instanceFullWatch (mkRevisionKey pid sid vid vd.revision) p)]) ++
        ([Ev.zkEnsureVersion vk, Ev.logrotate pid] ++
         add_routing ⟨mkRevisionKey pid sid vid vd.revision, p⟩ pr) := by
      rw [htr]
      simp
    rw [htr3]
    refine evPrecedes_split _ _ _ _ ?_ ?_
    · intro e he
      rcases List.mem_append.mp he with h3 | h4
      · rcases List.mem_cons.mp h3 with rfl | h5
        · rfl
        rcases List.mem_singleton.mp h5 with rfl
        rfl
      · exact (hR e h4).2.2.2
    · intro e he
      rcases List.mem_append.mp he with h1 | h2
      · rcases List.mem_cons.mp h1 with rfl | h3
        · rfl
        rcases List.mem_append.mp h3 with h4 | h5
        · exact (hA e h4).2.2.2.2
        · rcases List.mem_singleton.mp h5 with rfl
          rfl
      · rcases List.mem_cons.mp h2 with rfl | h3
        · rfl
        rcases List.mem_singleton.mp h3 with rfl
        rfl
  · refine ⟨pid, mkRevisionKey pid sid vid vd.revision, p, ?_, ?_, ?_, ?_, ?_⟩
    · rw [htr]; simp
    · rw [htr]; simp
    · rw [htr]; simp
    · rw [htr]; simp
    · intro hpr
      rw [htr, hpr]
      simp [add_routing]

/-- Environment used by the concrete start-path runs of the witnesses:
one python27 version record, a supervisor that starts watches
successfully and answers unmonitor calls. -/
def envDemo : Env where
  monitStartOk := fun _ => true
  unmonitorFetch := fun _ _ => none
  projects := fun p s v =>
    if p = "proj".toList ∧ s = "default".toList ∧ v = "v1".toList then
      some { runtime := "python27".toList, instanceClass := none,
             revision := 3, sourceUrl := "http://src".toList }
    else none
  runtimeParamsMaxMemory := none
  defaultMaxMemory := 400
  instanceClasses := fun _ => none
  private_ip := "10.0.0.2".toList

/-- Witness for claim C2: the orderings hold on the concrete trace of a
successful start of a python27 version. -/
theorem start_app_effect_order_example :
    evPrecedes (start_app envDemo "proj_default_v1".toList
        ⟨some 8080, some "10.0.0.1".toList⟩ true []).1
      isEnsureApi isCreateConfig ∧
    evPrecedes (start_app envDemo "proj_default_v1".toList
        ⟨some 8080, some "10.0.0.1".toList⟩ true []).1
      isSourceEnsure isMonitStart ∧
    evPrecedes (start_app envDemo "proj_default_v1".toList
        ⟨some 8080, some "10.0.0.1".toList⟩ true []).1
      isMonitStart isDeclare := by
  have h := start_app_effect_order envDemo "proj_default_v1".toList
    ⟨some 8080, some "10.0.0.1".toList⟩ true []
    (start_app envDemo "proj_default_v1".toList
      ⟨some 8080, some "10.0.0.1".toList⟩ true []).1
    [("proj".toList, 19999)] (by rfl)
  exact ⟨h.1, h.2.1, h.2.2.1⟩

/-- Recognizer for teardown events: the unmonitor call, the config
removal, the spawned termination, and the registry retraction. -/
def isTeardown : Ev → Bool
  | .unmonitorCall _ => true
  | .removeConfig _ => true
  | .terminate _ => true
  | .retract _ _ => true
  | _ => false

/-- Claim C3: in the start path the registry declare happens exactly when
the health probe reported ready; a probe timeout leaves the instance
unregistered but initiates no teardown (no unmonitor, config removal,
termination, or retraction occurs anywhere in the start trace), and
`add_routing` with a timed-out probe performs nothing beyond the probe. -/
theorem start_app_register_iff_ready (env : Env) (vk : Str) (cfg : Config)
    (pr : Bool) (api : List (Str × Int)) (tr : List Ev)
    (api' : List (Str × Int))
    (h : start_app env vk cfg pr api = (tr, .ok api')) :
    ((∃ rk p, Ev.declare rk p ∈ tr) ↔ pr = true) ∧
    (∀ e ∈ tr, isTeardown e = false) ∧
    (∀ inst : Instance, add_routing inst false = [Ev.probe inst.port]) := by
  obtain ⟨pid, sid, vid, vd, p, hsp, hport, hproj, htr⟩ :=
    start_app_ok_shape env vk cfg pr api tr api' h
  rcases ensure_api_server_trace env pid api with hAe | hAe <;>
    rw [hAe] at htr <;> cases pr <;>
    simp only [add_routing, if_true, if_false, Bool.false_eq_true] at htr <;>
    subst htr
  · refine ⟨?_, ?_, fun inst => rfl⟩
    · simp [add_routing]
    · intro e he
      fin_cases he <;> rfl
  · refine ⟨?_, ?_, fun inst => rfl⟩
    · constructor
      · intro _; rfl
      · intro _
        exact ⟨mkRevisionKey pid sid vid vd.revision, p, by simp⟩
    · intro e he
      fin_cases he <;> rfl
  · refine ⟨?_, ?_, fun inst => rfl⟩
    · simp [add_routing]
    · intro e he
      fin_cases he <;> rfl
  · refine ⟨?_, ?_, fun inst => rfl⟩
    · constructor
      · intro _; rfl
      · intro _
        exact ⟨mkRevisionKey pid sid vid vd.revision, p, by simp⟩
    · intro e he
      fin_cases he <;> rfl

/-- Witness for claim C3: on a concrete successful start with a timed-out
probe the trace contains no declare and no teardown event; with a ready
probe the declare is present. -/
theorem start_app_register_iff_ready_example :
    (¬ ∃ rk p, Ev.declare rk p ∈ (start_app envDemo "proj_default_v1".toList
        ⟨some 8080, some "10.0.0.1".toList⟩ false []).1) ∧
    (∀ e ∈ (start_app envDemo "proj_default_v1".toList
        ⟨some 8080, some "10.0.0.1".toList⟩ false []).1,
      isTeardown e = false) ∧
    (∃ rk p, Ev.declare rk p ∈ (start_app envDemo "proj_default_v1".toList
        ⟨some 8080, some "10.0.0.1".toList⟩ true []).1) := by
  have hf := start_app_register_iff_ready envDemo "proj_default_v1".toList
    ⟨some 8080, some "10.0.0.1".toList⟩ false []
    (start_app envDemo "proj_default_v1".toList
      ⟨some 8080, some "10.0.0.1".toList⟩ false []).1
    [("proj".toList, 19999)] (by rfl)
  have ht := start_app_register_iff_ready envDemo "proj_default_v1".toList
    ⟨some 8080, some "10.0.0.1".toList⟩ true []
    (start_app envDemo "proj_default_v1".toList
      ⟨some 8080, some "10.0.0.1".toList⟩ true []).1
    [("proj".toList, 19999)] (by rfl)
  refine ⟨?_, hf.2.1, ht.1.mpr rfl⟩
  intro hc
  have := hf.1.mp hc
  exact Bool.false_ne_true this

/-! ### The stop paths (claims C7, C8 and C10) -/

lemma unmonitor_and_terminate_ok (env : Env) (w : Str)
    (hall : ∀ (w' : Str) (c : Nat), unmonitor env w' ≠ .raised c) :
    (unmonitor_and_terminate env w).2 = .ok () := by
  unfold unmonitor_and_terminate
  cases hu : unmonitor env w
  · rfl
  · rfl
  · exact absurd hu (hall w _)

lemma stop_api_server_ok (env : Env) (pid : Str) (api : List (Str × Int))
    (hall : ∀ (w' : Str) (c : Nat), unmonitor env w' ≠ .raised c) :
    ∃ api2, (stop_api_server env pid api).2 = .ok api2 := by
  unfold stop_api_server
  cases hl : alistLookup api pid
  · exact ⟨api, rfl⟩
  · rename_i port
    simp only []
    rw [unmonitor_and_terminate_ok env (apiServerFullWatch pid port) hall]
    exact ⟨alistErase api pid, rfl⟩

/-- Claim C10: when `unmonitor` reports `ProcessNotFound` for a watch,
`unmonitor_and_terminate` performs only the unmonitor call — no config
removal, no termination, and no registry or running-set change — and a
surrounding `stop_app_instance` that tore that watch down still
completes successfully. -/
theorem unmonitor_notfound_returns (env : Env) (watch : Str)
    (hnf : unmonitor env watch = .notFound)
    (hall : ∀ (w' : Str) (c : Nat), unmonitor env w' ≠ .raised c) :
    unmonitor_and_terminate env watch = ([Ev.unmonitorCall watch], .ok ()) ∧
    (∀ w, Ev.removeConfig w ∉ (unmonitor_and_terminate env watch).1) ∧
    (∀ w, Ev.terminate w ∉ (unmonitor_and_terminate env watch).1) ∧
    (∀ rk p, Ev.retract rk p ∉ (unmonitor_and_terminate env watch).1) ∧
    (∀ rk p, Ev.declare rk p ∉ (unmonitor_and_terminate env watch).1) ∧
    (∀ (vk : Str) (port : Int) (entries : List Str) (api : List (Str × Int)),
      is_app_name_valid ((splitSep VERSION_PATH_SEP vk).headD []) = true →
      entries.find? (fun e => instanceKeyMatch vk port e) = some watch →
      ∃ api2, (stop_app_instance env vk port entries api).2 = .ok api2) := by
  have h1 : unmonitor_and_terminate env watch =
      ([Ev.unmonitorCall watch], .ok ()) := by
    unfold unmonitor_and_terminate
    rw [hnf]
  refine ⟨h1, ?_, ?_, ?_, ?_, ?_⟩
  · intro w
    rw [h1]
    simp
  · intro w
    rw [h1]
    simp
  · intro rk p
    rw [h1]
    simp
  · intro rk p
    rw [h1]
    simp
  · intro vk port entries api hval hfind
    unfold stop_app_instance
    rw [if_neg (by simpa using hval), hfind]
    simp only []
    rw [unmonitor_and_terminate_ok env watch hall]
    by_cases hrem : (entries.filter (fun e =>
        isPre (instanceWatchPre ++ (splitSep VERSION_PATH_SEP vk).headD []) e
          && ¬ instanceKeyMatch vk port e)).isEmpty
    · rw [if_pos hrem]
      obtain ⟨api2, h3⟩ := stop_api_server_ok env
        ((splitSep VERSION_PATH_SEP vk).headD []) api hall
      rw [h3]
      exact ⟨api2, rfl⟩
    · rw [if_neg hrem]
      exact ⟨api, rfl⟩

/-- Environment whose supervisor answers every unmonitor POST with 404. -/
def env404 : Env :=
  { envDemo with unmonitorFetch := fun _ _ => some 404 }

/-- Witness for claim C10: with a supervisor answering 404, stopping the
only instance of a project performs no config removal or termination for
the instance watch, yet the stop operation returns successfully. -/
theorem unmonitor_notfound_returns_example :
    unmonitor_and_terminate env404 "instance_a_b_c_1-80".toList =
      ([Ev.unmonitorCall "instance_a_b_c_1-80".toList], .ok ()) ∧
    ∃ api2, (stop_app_instance env404 "a_b_c".toList 80
      ["instance_a_b_c_1-80".toList] [("a".toList, 19999)]).2 = .ok api2 := by
  have hall : ∀ (w' : Str) (c : Nat), unmonitor env404 w' ≠ .raised c := by
    intro w' c hc
    rw [show unmonitor env404 w' = .notFound from rfl] at hc
    exact UnmonRes.noConfusion hc
  have h := unmonitor_notfound_returns env404 "instance_a_b_c_1-80".toList
    rfl hall
  exact ⟨h.1, h.2.2.2.2.2 "a_b_c".toList 80 ["instance_a_b_c_1-80".toList]
    [("a".toList, 19999)] (by decide) (by decide)⟩

lemma unmonitor_and_terminate_err (env : Env) (w : Str) (e : Err)
    (h : (unmonitor_and_terminate env w).2 = .error e) :
    ∃ c, e = .unmonitorHttp c := by
  unfold unmonitor_and_terminate at h
  cases hu : unmonitor env w <;> rw [hu] at h
  · simp at h
  · simp at h
  · rename_i c
    simp only [Except.error.injEq] at h
    exact ⟨c, h.symm⟩

lemma stop_api_server_err (env : Env) (pid : Str) (api : List (Str × Int))
    (e : Err) (h : (stop_api_server env pid api).2 = .error e) :
    ∃ c, e = .unmonitorHttp c := by
  unfold stop_api_server at h
  cases hl : alistLookup api pid <;> rw [hl] at h
  · simp at h
  · rename_i port
    simp only [] at h
    cases hu : (unmonitor_and_terminate env (apiServerFullWatch pid port)).2 <;>
      rw [hu] at h
    · rename_i e'
      simp only [Except.error.injEq] at h
      obtain ⟨c, rfl⟩ := unmonitor_and_terminate_err env _ e' hu
      exact ⟨c, h.symm⟩
    · simp at h

/-- Claim C7 (amended): for a request whose project id passes identifier
validation, `stop_app_instance` fails with the internal error exactly
when no Monit entry matches the pattern
`instance_<versionKey>.*-<port>`; and when it so fails nothing has been
done: the trace of performed effects is empty. -/
theorem stop_one_internal_iff (env : Env) (vk : Str) (port : Int)
    (entries : List Str) (api : List (Str × Int))
    (hval : is_app_name_valid ((splitSep VERSION_PATH_SEP vk).headD []) = true) :
    ((stop_app_instance env vk port entries api).2 =
        .error (.noEntries vk port) ↔
      ∀ e ∈ entries, instanceKeyMatch vk port e = false) ∧
    ((stop_app_instance env vk port entries api).2 =
        .error (.noEntries vk port) →
      (stop_app_instance env vk port entries api).1 = []) := by
  unfold stop_app_instance
  rw [if_neg (by simpa using hval)]
  cases hfind : entries.find? (fun e => instanceKeyMatch vk port e)
  · refine ⟨iff_of_true rfl ?_, fun _ => rfl⟩
    intro e he
    have := List.find?_eq_none.mp hfind e he
    simpa using this
  · rename_i w
    have hRHS : ¬ (∀ e ∈ entries, instanceKeyMatch vk port e = false) := by
      intro hall
      have h1 := List.find?_some hfind
      have h2 := List.mem_of_find?_eq_some hfind
      rw [hall w h2] at h1
      exact Bool.false_ne_true h1
    simp only []
    cases hu : (unmonitor_and_terminate env w).2
    · rename_i e
      obtain ⟨c, rfl⟩ := unmonitor_and_terminate_err env w e hu
      exact ⟨iff_of_false (by simp) hRHS, fun hh => absurd hh (by simp)⟩
    · by_cases hrem : (entries.filter (fun e =>
          isPre (instanceWatchPre ++ (splitSep VERSION_PATH_SEP vk).headD []) e
            && ¬ instanceKeyMatch vk port e)).isEmpty
      · rw [if_pos hrem]
        cases hs : (stop_api_server env
            ((splitSep VERSION_PATH_SEP vk).headD []) api).2
        · rename_i e
          obtain ⟨c, rfl⟩ := stop_api_server_err env _ api e hs
          exact ⟨iff_of_false (by simp) hRHS, fun hh => absurd hh (by simp)⟩
        · exact ⟨iff_of_false (by simp) hRHS, fun hh => absurd hh (by simp)⟩
      · rw [if_neg hrem]
        exact ⟨iff_of_false (by simp) hRHS, fun hh => absurd hh (by simp)⟩

/-- Counterexample to claim C7 as stated: with an invalid project id and
no supervisor entries, no entry matches the pattern, yet the operation
fails with `BadConfiguration`, not with the internal error. -/
theorem stop_one_internal_iff_cex :
    (∀ e ∈ ([] : List Str),
      instanceKeyMatch "B_s_v".toList 80 e = false) ∧
    (stop_app_instance envDemo "B_s_v".toList 80 [] []).2 =
      .error (.badConfig "Invalid project ID".toList) ∧
    (stop_app_instance envDemo "B_s_v".toList 80 [] []).2 ≠
      .error (.noEntries "B_s_v".toList 80) := by
  refine ⟨?_, by decide, by decide⟩
  intro e he
  exact absurd he (List.not_mem_nil e)

/-- Witness for (amended) claim C7: for a valid project id and an empty
supervisor listing the stop fails with the internal error and performs
nothing. -/
theorem stop_one_internal_iff_example :
    (stop_app_instance envDemo "a_s_v".toList 80 [] []).2 =
      .error (.noEntries "a_s_v".toList 80) ∧
    (stop_app_instance envDemo "a_s_v".toList 80 [] []).1 = [] := by
  have h := stop_one_internal_iff envDemo "a_s_v".toList 80 [] [] (by decide)
  have h1 := h.1.mpr (fun e he => absurd he (List.not_mem_nil e))
  exact ⟨h1, h.2 h1⟩

/-- Claim C8 evaluated at its failing input: stopping `(a_b_c, 80)` while
the supervisor lists `instance_a_b_c_1-80` and `instance_a_b_c_1-8080`.
The unanchored pattern `instance_a_b_c.*-80` also matches the `-8080`
entry, so the remaining-instances check sees none: the operation tears
the API server of project `a` down (its config removal appears in the
trace and the project-to-port mapping comes back empty) even though the
`-8080` instance watch was never stopped — it is project-prefixed,
distinct from the stopped watch, and receives no unmonitor, config
removal, or termination. -/
theorem stop_one_api_teardown_despite_surviving_instance :
    (stop_app_instance envDemo "a_b_c".toList 80
        ["instance_a_b_c_1-80".toList, "instance_a_b_c_1-8080".toList]
        [("a".toList, 19999)]).2 = .ok [] ∧
    Ev.removeConfig (apiServerFullWatch "a".toList 19999) ∈
      (stop_app_instance envDemo "a_b_c".toList 80
        ["instance_a_b_c_1-80".toList, "instance_a_b_c_1-8080".toList]
        [("a".toList, 19999)]).1 ∧
    List.find? (fun e => instanceKeyMatch "a_b_c".toList 80 e)
        ["instance_a_b_c_1-80".toList, "instance_a_b_c_1-8080".toList] =
      some "instance_a_b_c_1-80".toList ∧
    isPre (instanceWatchPre ++ "a".toList)
      "instance_a_b_c_1-8080".toList = true ∧
    "instance_a_b_c_1-8080".toList ≠ "instance_a_b_c_1-80".toList ∧
    Ev.unmonitorCall "instance_a_b_c_1-8080".toList ∉
      (stop_app_instance envDemo "a_b_c".toList 80
        ["instance_a_b_c_1-80".toList, "instance_a_b_c_1-8080".toList]
        [("a".toList, 19999)]).1 ∧
    Ev.removeConfig "instance_a_b_c_1-8080".toList ∉
      (stop_app_instance envDemo "a_b_c".toList 80
        ["instance_a_b_c_1-80".toList, "instance_a_b_c_1-8080".toList]
        [("a".toList, 19999)]).1 ∧
    Ev.terminate "instance_a_b_c_1-8080".toList ∉
      (stop_app_instance envDemo "a_b_c".toList 80
        ["instance_a_b_c_1-80".toList, "instance_a_b_c_1-8080".toList]
        [("a".toList, 19999)]).1 := by
  decide

/-! ### The BadConfiguration surface of the start path (claim C6) -/

lemma ensure_api_server_ok (env : Env) (pid : Str) (api : List (Str × Int))
    (hmonit : ∀ w, env.monitStartOk w = true) :
    ∃ port api2, (ensure_api_server env pid api).2 = .ok (port, api2) := by
  unfold ensure_api_server
  cases hl : alistLookup api pid
  · simp only [hmonit, if_true]
    exact ⟨_, _, rfl⟩
  · exact ⟨_, _, rfl⟩

lemma startTail_ok (env : Env) (pid vk rk : Str) (p : Int) (pr : Bool)
    (evs0 : List Ev) (api3 : List (Str × Int))
    (hok : env.monitStartOk (instanceFullWatch rk p) = true) :
    (startTail env pid vk rk p pr evs0 api3).2 = .ok api3 := by
  unfold startTail
  simp only []
  rw [if_pos hok]

lemma knownPython_not_java {r : Str} (h : knownPython r = true) :
    r ≠ RT_JAVA := by
  intro hj
  subst hj
  exact absurd h (by decide)

/-- Claim C6 (amended): for a version key with exactly three components
and a supervisor able to start watches, `start_app` raises
`BadConfiguration` exactly when `app_port` is missing, `login_server` is
missing or empty, the project id fails identifier validation, the
projects model has no record for the version, the runtime is unknown
(none of python27, go, php, java), or the runtime is java and the
configured maximum memory minus 250 is not positive. -/
theorem start_app_badconfig_iff (env : Env) (vk : Str) (cfg : Config)
    (pr : Bool) (api : List (Str × Int)) (pid sid vid : Str)
    (hsp : splitSep VERSION_PATH_SEP vk = [pid, sid, vid])
    (hmonit : ∀ w, env.monitStartOk w = true) :
    (∃ m, (start_app env vk cfg pr api).2 = .error (.badConfig m)) ↔
      (cfg.app_port = none ∨
       cfg.login_server = none ∨ cfg.login_server = some [] ∨
       is_app_name_valid pid = false ∨
       env.projects pid sid vid = none ∨
       (∃ vd, env.projects pid sid vid = some vd ∧
         ((knownPython vd.runtime = false ∧ vd.runtime ≠ RT_JAVA) ∨
          (vd.runtime = RT_JAVA ∧ maxMemoryOf env vd - 250 ≤ 0)))) := by
  unfold start_app
  cases hport : cfg.app_port with
  | none => exact iff_of_true ⟨_, rfl⟩ (Or.inl rfl)
  | some p =>
  simp only []
  cases hls : cfg.login_server with
  | none => exact iff_of_true ⟨_, rfl⟩ (Or.inr (Or.inl rfl))
  | some ls =>
  simp only []
  by_cases hle : ls = []
  · rw [if_pos hle]
    subst hle
    exact iff_of_true ⟨_, rfl⟩ (Or.inr (Or.inr (Or.inl rfl)))
  rw [if_neg hle]
  rw [hsp]
  simp only []
  by_cases hval : is_app_name_valid pid
  · rw [if_neg (by simp [hval])]
    cases hproj : env.projects pid sid vid with
    | none =>
      exact iff_of_true ⟨_, rfl⟩
        (Or.inr (Or.inr (Or.inr (Or.inr (Or.inl rfl)))))
    | some vd =>
    simp only []
    obtain ⟨aport, api2, hens⟩ := ensure_api_server_ok env pid api hmonit
    rw [hens]
    simp only []
    by_cases hpy : knownPython vd.runtime
    · rw [if_pos hpy]
      refine iff_of_false ?_ ?_
      · rintro ⟨m, hm⟩
        rw [startTail_ok env pid vk
          (mkRevisionKey pid sid vid vd.revision) p pr _ api2
          (hmonit _)] at hm
        exact Except.noConfusion hm
      · rintro (h | h | h | h | h | ⟨vd', hvd', hcase⟩)
        · exact Option.noConfusion h
        · exact Option.noConfusion h
        · exact hle (by injection h)
        · simp [hval] at h
        · exact Option.noConfusion h
        · injection hvd' with hvd''
          subst hvd''
          rcases hcase with ⟨hk, _⟩ | ⟨hj, _⟩
          · simp [hpy] at hk
          · exact knownPython_not_java hpy hj
    · rw [if_neg hpy]
      by_cases hjava : vd.runtime = RT_JAVA
      · rw [if_pos hjava]
        by_cases hmem : maxMemoryOf env vd - 250 ≤ 0
        · rw [if_pos hmem]
          refine iff_of_true ⟨_, rfl⟩ ?_
          exact Or.inr (Or.inr (Or.inr (Or.inr (Or.inr
            ⟨vd, rfl, Or.inr ⟨hjava, hmem⟩⟩))))
        · rw [if_neg hmem]
          refine iff_of_false ?_ ?_
          · rintro ⟨m, hm⟩
            rw [startTail_ok env pid vk
              (mkRevisionKey pid sid vid vd.revision) p pr _ api2
              (hmonit _)] at hm
            exact Except.noConfusion hm
          · rintro (h | h | h | h | h | ⟨vd', hvd', hcase⟩)
            · exact Option.noConfusion h
            · exact Option.noConfusion h
            · exact hle (by injection h)
            · simp [hval] at h
            · exact Option.noConfusion h
            · injection hvd' with hvd''
              subst hvd''
              rcases hcase with ⟨_, hnj⟩ | ⟨_, hm2⟩
              · exact hnj hjava
              · exact hmem hm2
      · rw [if_neg hjava]
        refine iff_of_true ⟨_, rfl⟩ ?_
        exact Or.inr (Or.inr (Or.inr (Or.inr (Or.inr
          ⟨vd, rfl, Or.inl ⟨by simpa using hpy, hjava⟩⟩))))
  · rw [if_pos (by simp [hval])]
    refine iff_of_true ⟨_, rfl⟩ ?_
    exact Or.inr (Or.inr (Or.inr (Or.inl (by simpa using hval))))

/-- Counterexample to claim C6 as stated: a request whose `login_server`
is present but empty satisfies none of the claim's listed conditions —
`app_port` and `login_server` are present, the project id is valid, a
version record exists, and the runtime is python27 — yet `start_app`
raises `BadConfiguration`. -/
theorem start_app_badconfig_cex :
    (start_app envDemo "proj_default_v1".toList
        ⟨some 8080, some []⟩ true []).2 =
      .error (.badConfig "login_server is required".toList) ∧
    (⟨some 8080, some []⟩ : Config).app_port ≠ none ∧
    (⟨some 8080, some []⟩ : Config).login_server ≠ none ∧
    is_app_name_valid "proj".toList = true ∧
    envDemo.projects "proj".toList "default".toList "v1".toList =
      some ⟨"python27".toList, none, 3, "http://src".toList⟩ ∧
    knownPython "python27".toList = true ∧
    "python27".toList ≠ RT_JAVA := by
  refine ⟨by decide, by decide, by decide, by decide, by decide, by decide,
    by decide⟩

/-- Environment with a java version record whose configured maximum
memory is 200MB. -/
def envJava : Env where
  monitStartOk := fun _ => true
  unmonitorFetch := fun _ _ => none
  projects := fun _ _ _ =>
    some { runtime := "java".toList, instanceClass := none,
           revision := 1, sourceUrl := "http://src".toList }
  runtimeParamsMaxMemory := some 200
  defaultMaxMemory := 400
  instanceClasses := fun _ => none
  private_ip := "10.0.0.2".toList

/-- Witness for (amended) claim C6: a well-formed python27 start raises
no `BadConfiguration`; a java version with 200MB of configured memory
does. -/
theorem start_app_badconfig_iff_example :
    (¬ ∃ m, (start_app envDemo "proj_default_v1".toList
        ⟨some 8080, some "10.0.0.1".toList⟩ true []).2 =
      .error (.badConfig m)) ∧
    (∃ m, (start_app envJava "proj_default_v1".toList
        ⟨some 8080, some "10.0.0.1".toList⟩ true []).2 =
      .error (.badConfig m)) := by
  constructor
  · intro hL
    have h := (start_app_badconfig_iff envDemo "proj_default_v1".toList
      ⟨some 8080, some "10.0.0.1".toList⟩ true [] "proj".toList
      "default".toList "v1".toList (by decide) (fun _ => rfl)).mp hL
    rcases h with h | h | h | h | h | ⟨vd, hvd, hc⟩
    · exact absurd h (by decide)
    · exact absurd h (by decide)
    · exact absurd h (by decide)
    · exact absurd h (by decide)
    · exact absurd h (by decide)
    · rw [show envDemo.projects "proj".toList "default".toList "v1".toList =
          some ⟨"python27".toList, none, 3, "http://src".toList⟩
        from by decide] at hvd
      injection hvd with hvd'
      subst hvd'
      rcases hc with ⟨hk, _⟩ | ⟨hj, _⟩
      · exact absurd hk (by decide)
      · exact absurd hj (by decide)
  · refine (start_app_badconfig_iff envJava "proj_default_v1".toList
      ⟨some 8080, some "10.0.0.1".toList⟩ true [] "proj".toList
      "default".toList "v1".toList (by decide) (fun _ => rfl)).mpr ?_
    exact Or.inr (Or.inr (Or.inr (Or.inr (Or.inr
      ⟨⟨"java".toList, none, 1, "http://src".toList⟩, rfl,
       Or.inr ⟨rfl, by decide⟩⟩))))
